import Mathlib

/-!
Verification development for the slack-payroll-bot repository.

The repository contains two main iterations of the bot:
  * `src/app.js` — the direct-dispatch iteration: a `file_shared` event
    downloads a CSV, `processCsvAndNotify` parses it, sends one DM per valid
    row, and posts one aggregate report to the originating channel; a
    `reaction_added` handler correlates check-mark reactions back to
    recipients through the `sentMessages` map.
  * `src/unnamed/part_002` — the staged iteration: `file_shared` parses the
    CSV and stores a pending job in `pendingJobs`, posting a confirmation
    prompt; `confirm_send_action` / `cancel_send_action` drive the job to
    completion or cancellation.

Both iterations are embedded shallowly below: pure row/report logic as Lean
functions, the stateful handlers as explicit state-passing functions over an
`AppState`, with fallible external calls (message send, message update)
supplied by oracle environments, and the confirm-action race modelled by a
small-step scheduler over two concurrent handler invocations.
-/

/-! ## CSV columns and row data (app.js:38-44, part_002:23-29)

A CSV record is modelled by the five columns the bot reads.  A field holds
`none` when the column value is absent (JavaScript `undefined`) and
`some s` when present; JavaScript truthiness of a string field is
`s ≠ ""`. -/

def CSV_SLACK_ID : String := "Slack User"

def CSV_NAME : String := "Name"

def CSV_SALARY : String := "Salary"

def CSV_FALTAS : String := "Faltas"

def CSV_FERIADOS : String := "Feriados Trabalhados"

def expectedHeaders : List String :=
  [CSV_SLACK_ID, CSV_NAME, CSV_SALARY, CSV_FALTAS, CSV_FERIADOS]

structure Row where
  slackUser : Option String
  name : Option String
  salary : Option String
  faltas : Option String
  feriados : Option String
  deriving Repr, DecidableEq

/-- JavaScript truthiness of `row[col]`: `undefined` and `""` are falsy,
every other string is truthy. -/
def truthy : Option String → Bool
  | none => false
  | some s => !(s == "")

/-- The value `row[CSV_COLS.NAME]` coerced to a string (used only where the code has
already established the field is truthy, or inside `agentName || fallback`). -/
def jsName (r : Row) : String := r.name.getD ""

def jsUser (r : Row) : String := r.slackUser.getD ""

def jsSalary (r : Row) : String := r.salary.getD ""

/-! ## JavaScript `parseInt(x, 10)` (app.js:88-89, part_002:257-258)

`parseInt` skips leading whitespace, accepts an optional sign, then reads
the longest leading run of decimal digits; it yields `NaN` (here `none`)
iff that run is empty.  A value such as `"12abc"` therefore parses to `12`. -/

def isJsSpace (c : Char) : Bool :=
  c == ' ' || c == '\t' || c == '\n' || c == '\r' || c == '\x0b' || c == '\x0c'

def skipWs : List Char → List Char
  | [] => []
  | c :: cs => if isJsSpace c then skipWs cs else c :: cs

def leadDigits (cs : List Char) : List Char := cs.takeWhile Char.isDigit

def digitsVal (cs : List Char) : Nat :=
  cs.foldl (fun acc c => acc * 10 + (c.toNat - 48)) 0

def jsParseInt (s : String) : Option Int :=
  match skipWs s.data with
  | [] => none
  | c :: cs =>
    if c == '-' then
      match leadDigits cs with
      | [] => none
      | ds => some (-(digitsVal ds : Int))
    else if c == '+' then
      match leadDigits cs with
      | [] => none
      | ds => some ((digitsVal ds : Int))
    else
      match leadDigits (c :: cs) with
      | [] => none
      | ds => some ((digitsVal ds : Int))

/-- Models `parseInt(row[col] || 0, 10)`: an absent or empty field is replaced by
the number `0` before parsing (`parseInt(0, 10) = 0`); any other string is
parsed by `jsParseInt`. -/
def numField : Option String → Option Int
  | none => some 0
  | some s => if s == "" then some 0 else jsParseInt s

/-! ## Tabular data reader (app.js:153-178, identical in part_002:55-79)

`readCsvFile` fails with code `INVALID_HEADERS` and the list of missing
required columns when the header row lacks one of them (rejecting before
any data row is resolved); otherwise it keeps exactly the records having at
least one truthy field whose trim is non-empty. -/

structure CsvError where
  code : String
  missing : List String
  deriving Repr, DecidableEq

def csvErrMessage (e : CsvError) : String :=
  "Cabeçalhos obrigatórios ausentes no CSV: " ++ String.intercalate ", " e.missing

structure CsvFile where
  headers : List String
  records : List Row
  deriving Repr, DecidableEq

def missingHeaders (f : CsvFile) : List String :=
  expectedHeaders.filter (fun h => !(f.headers.contains h))

def rowValues (r : Row) : List (Option String) :=
  [r.slackUser, r.name, r.salary, r.faltas, r.feriados]

/-- Models `Object.values(row).some(val => val && val.trim() !== '')`:
a truthy value whose trim is non-empty is exactly a value containing at
least one non-whitespace character. -/
def keepRow (r : Row) : Bool :=
  (rowValues r).any fun v =>
    match v with
    | none => false
    | some s => !(s == "") && s.data.any (fun c => !(isJsSpace c))

def readCsvFile (f : CsvFile) : Except CsvError (List Row) :=
  let missing := missingHeaders f
  if missing.isEmpty then
    .ok (f.records.filter keepRow)
  else
    .error ⟨"INVALID_HEADERS", missing⟩

/-! ## Row classification helpers (app.js:75-95, part_002:244-263)

`rowMissing` is the guard `!slackUserId || !salary || !agentName`;
`rowValid` holds when the row passes both that guard and the numeric
parse, i.e. exactly when a send is attempted for it. -/

def rowMissing (r : Row) : Bool :=
  !(truthy r.slackUser && truthy r.salary && truthy r.name)

def rowInvalidNum (r : Row) : Bool :=
  !(rowMissing r) && ((numField r.faltas).isNone || (numField r.feriados).isNone)

def rowFails (r : Row) : Bool := rowMissing r || rowInvalidNum r

def rowValid (r : Row) : Bool := !(rowFails r)

def unknownName : String := "Nome Desconhecido (ID ou Salário ausente)"

/-- The entry `failedUsers.push(...)` records for a row, as a function of
the row and of the send oracle at the row's index; `none` when the row is
sent successfully. -/
def failLabel (send : Nat → Option String) (i : Nat) (r : Row) : Option String :=
  if rowMissing r then
    some (if truthy r.name then jsName r else unknownName)
  else
    match numField r.faltas, numField r.feriados with
    | some _, some _ =>
      match send i with
      | some _ => none
      | none => some (jsName r)
    | _, _ => some (jsName r ++ " (dados numéricos inválidos)")

/-- The ordered failure list produced by walking the rows from index `i`. -/
def failLabels (send : Nat → Option String) : Nat → List Row → List String
  | _, [] => []
  | i, r :: rs =>
    match failLabel send i r with
    | some l => l :: failLabels send (i + 1) rs
    | none => failLabels send (i + 1) rs

/-! ## Message renderer (app.js:188-290)

`generateMessage` in app.js returns a list of Slack blocks; the model keeps
the textual payloads of the blocks, in block order (pure dividers dropped,
since they carry no text). -/

def faltasText (faltas : Int) : String :=
  if faltas > 0 then
    if faltas == 1 then "houve *" ++ toString faltas ++ " falta*"
    else "houve *" ++ toString faltas ++ " faltas*"
  else "*não houve faltas*"

def feriadosText (feriadosTrabalhados : Int) : String :=
  if feriadosTrabalhados > 0 then
    if feriadosTrabalhados == 1 then
      "trabalhou em *" ++ toString feriadosTrabalhados ++ " feriado*"
    else "trabalhou em *" ++ toString feriadosTrabalhados ++ " feriados*"
  else "*não trabalhou em nenhum feriado*"

def generateMessage (name salary : String) (faltas feriadosTrabalhados : Int) :
    List String :=
  ["Detalhes de Pagamento Mensal",
   ":wave: Olá, *" ++ name ++ "!*",
   "Esperamos que esteja tudo bem. Passamos aqui para compartilhar os detalhes do seu salário referente a este mês.",
   "*Valor a ser pago:* *US$" ++ salary ++ "*",
   "*Detalhes adicionais:*\n• Faltas: " ++ faltasText faltas
     ++ "\n• Feriados trabalhados: " ++ feriadosText feriadosTrabalhados,
   "*Instruções para emissão da nota:*\n• A nota deve ser emitida no _último dia útil do mês_.\n• Ao emitir a nota, inclua o valor do câmbio utilizado e o mês de referência. Exemplo:",
   "Honorários <mês> - Asesoramiento de atenção al cliente + cambio utilizado (US$ 1 = BR$ 5,55)",
   "Envie o anexo com o nome neste formato:\n\"Nome Sobrenome - Mês.Ano\"",
   "Por exemplo: Claudia Fonseca - 09.2025",
   "*Caso não haja pendências*, você pode emitir a nota fiscal para corefone@domus.global com cópia para administracion@corefone.us, gilda.romero@corefone.us, e os supervisores.",
   "Por favor, confirme que recebeu esta mensagem e concorda com os valores acima reagindo com um ✅ (*check*).",
   "Agradecemos sua atenção e desejamos um ótimo trabalho!\nAtenciosamente,\n*Supervisão Corefone BR*"]

/-! ## Notification dispatcher (app.js:66-146)

`processRows` is the `for (const row of data)` loop of
`processCsvAndNotify`, walking the rows in order from a starting index.
Alongside the code's own accumulators (`successCount`, `failedUsers`,
`reportMessages` as the list of its appended lines, `trackMessage` entries)
the result records which row indices reached a `chat.postMessage` call
(`attempts`) and the DM payloads handed to it (`dms`); the external send is
an oracle `send : Nat → Option String` giving, per row index, the returned
message timestamp on success or `none` when the call throws. -/

def detailLine (name salary : String) (faltas feriadosTrabalhados : Int) : String :=
  "\n• *" ++ name ++ ":* Salário: US$" ++ salary ++ ", Faltas: "
    ++ toString faltas ++ ", Feriados: " ++ toString feriadosTrabalhados

structure DispatchResult where
  successCount : Nat
  failedUsers : List String
  detailLines : List String
  attempts : List Nat
  dms : List (String × List String)
  tracked : List (String × String × String)
  deriving Repr, DecidableEq

def emptyDispatch : DispatchResult := ⟨0, [], [], [], [], []⟩

def processRows (send : Nat → Option String) : Nat → List Row → DispatchResult
  | _, [] => emptyDispatch
  | i, r :: rs =>
    let rest := processRows send (i + 1) rs
    if rowMissing r then
      { rest with
        failedUsers := (if truthy r.name then jsName r else unknownName) :: rest.failedUsers }
    else
      match numField r.faltas, numField r.feriados with
      | some faltas, some feriadosTrabalhados =>
        let msg := generateMessage (jsName r) (jsSalary r) faltas feriadosTrabalhados
        (match send i with
         | some ts =>
           ⟨rest.successCount + 1,
            rest.failedUsers,
            detailLine (jsName r) (jsSalary r) faltas feriadosTrabalhados :: rest.detailLines,
            i :: rest.attempts,
            (jsUser r, msg) :: rest.dms,
            (ts, jsUser r, jsName r) :: rest.tracked⟩
         | none =>
           { rest with
             failedUsers := jsName r :: rest.failedUsers,
             attempts := i :: rest.attempts,
             dms := (jsUser r, msg) :: rest.dms })
      | _, _ =>
        { rest with
          failedUsers := (jsName r ++ " (dados numéricos inválidos)") :: rest.failedUsers }

/-! ## Aggregate report (app.js:116-127) -/

def reportBase (successCount total : Nat) : String :=
  "Planilha processada! ✅\n*" ++ toString successCount ++ " de " ++ toString total
    ++ "* mensagens enviadas com sucesso."

def reportText (res : DispatchResult) (total : Nat) : String :=
  let reportMessages := String.join res.detailLines
  let base := reportBase res.successCount total
  let withDetails :=
    if reportMessages == "" then base
    else base ++ "\n\n*Detalhes enviados:*" ++ reportMessages
  if res.failedUsers.isEmpty then withDetails
  else withDetails ++ "\n\n❌ *Falha ao enviar para:* "
    ++ String.intercalate ", " res.failedUsers

/-- The outward behaviour of `processCsvAndNotify` (app.js:66-146): the
messages posted to the originating channel, in order, and the dispatch
result when the reader succeeded.  On a reader error the channel receives
the error notice (`INVALID_HEADERS` errors surface their own message, any
other error the generic one) and nothing is dispatched. -/
structure NotifyOutput where
  channelMsgs : List String
  result : Option DispatchResult
  deriving Repr, DecidableEq

def genericCsvError : String := "Ocorreu um erro inesperado ao processar a planilha."

def processCsvAndNotify (send : Nat → Option String) (f : CsvFile) : NotifyOutput :=
  match readCsvFile f with
  | .error e =>
    ⟨["❌ " ++ (if e.code == "INVALID_HEADERS" then csvErrMessage e else genericCsvError)],
     none⟩
  | .ok data =>
    let res := processRows send 0 data
    ⟨[reportText res data.length], some res⟩

/-! ## Acknowledgment tracker (app.js:46-52 and 332-348, identical handler
in part_002:335-351)

`sentMessages` is modelled as an association list from a message timestamp
to `(recipient user id, display name)`; `reaction_added` returns the new
map together with the admin-channel notice it posts, if any. -/

def ackLookup (sent : List (String × String × String)) (ts : String) :
    Option (String × String) :=
  match sent with
  | [] => none
  | (k, v) :: rest => if k == ts then some v else ackLookup rest ts

def ackErase (sent : List (String × String × String)) (ts : String) :
    List (String × String × String) :=
  sent.filter fun p => !(p.1 == ts)

def ackNotice (name user : String) : String :=
  "✅ O agente *" ++ name ++ "* (<@" ++ user
    ++ ">) confirmou o recebimento do salário e está de acordo com os valores."

def reaction_added (sent : List (String × String × String))
    (reaction ts user : String) :
    List (String × String × String) × Option String :=
  match ackLookup sent ts with
  | some (u, name) =>
    if reaction == "white_check_mark" && u == user then
      (ackErase sent ts, some (ackNotice name user))
    else (sent, none)
  | none => (sent, none)

/-! ## Staged-job iteration (src/unnamed/part_002)

State of the part_002 process: the `pendingJobs` map, the `processedFiles`
duplicate-suppression set, the `sentMessages` acknowledgment map, and the
set of temporary artifact files currently on disk.  Handlers return the new
state paired with the list of external calls they issued, in order. -/

structure Job where
  data : List Row
  filePath : String
  channelId : String
  userId : String
  deriving Repr, DecidableEq

inductive Eff
  | postMsg (channel text : String)
  | updateMsg (channel ts text : String)
  | dmAttempt (user : String)
  | accessDeniedModal (user : String)
  deriving Repr, DecidableEq

structure AppState where
  pendingJobs : List (String × Job)
  processedFiles : List String
  sentMessages : List (String × String × String)
  files : List String
  deriving Repr, DecidableEq

def jobLookup (m : List (String × Job)) (k : String) : Option Job :=
  match m with
  | [] => none
  | (k2, v) :: rest => if k2 == k then some v else jobLookup rest k

/-- Models `pendingJobs.delete(k)`. -/
def jobErase (m : List (String × Job)) (k : String) : List (String × Job) :=
  m.filter fun p => !(p.1 == k)

/-- Models `pendingJobs.set(k, v)` — overwrites any existing entry for `k`. -/
def jobSet (m : List (String × Job)) (k : String) (v : Job) : List (String × Job) :=
  (k, v) :: jobErase m k

/-- Oracle for the fallible external calls a confirm/cancel handler makes:
`send i` is the message timestamp returned by the DM send for row `i`
(`none` when the call throws); `updateOk` tells whether the first
`chat.update` of the handler succeeds and `reportUpdateOk` whether the
final (report) `chat.update` does. -/
structure ConfirmEnv where
  send : Nat → Option String
  updateOk : Bool
  reportUpdateOk : Bool

/-- The dispatch loop of `confirm_send_action` (part_002:240-273): same
row logic as app.js, but the rendered DM body is the single-string
`generateMessage` of part_002 (the effect records the recipient; no claim
inspects the staged iteration's DM body). -/
def dispatchRowsB (send : Nat → Option String) :
    Nat → List Row → Nat × List String × List Eff × List (String × String × String)
  | _, [] => (0, [], [], [])
  | i, r :: rs =>
    let rest := dispatchRowsB send (i + 1) rs
    if rowMissing r then
      (rest.1, (if truthy r.name then jsName r else unknownName) :: rest.2.1,
       rest.2.2.1, rest.2.2.2)
    else
      match numField r.faltas, numField r.feriados with
      | some _, some _ =>
        (match send i with
         | some ts =>
           (rest.1 + 1, rest.2.1, .dmAttempt (jsUser r) :: rest.2.2.1,
            (ts, jsUser r, jsName r) :: rest.2.2.2)
         | none =>
           (rest.1, jsName r :: rest.2.1, .dmAttempt (jsUser r) :: rest.2.2.1,
            rest.2.2.2))
      | _, _ =>
        (rest.1, (jsName r ++ " (dados numéricos inválidos)") :: rest.2.1,
         rest.2.2.1, rest.2.2.2)

def sendingText (n : Nat) : String :=
  "Enviando " ++ toString n ++ " notificações... ⏳"

def criticalErrText : String :=
  "❌ Ocorreu um erro crítico durante o envio. Verifique os logs."

def reportTextB (successCount total : Nat) (failedUsers : List String) : String :=
  let base := "Relatório de Envio! ✅\n*" ++ toString successCount ++ " de "
    ++ toString total ++ "* mensagens enviadas com sucesso."
  if failedUsers.isEmpty then base
  else base ++ "\n\n❌ *Falha ao enviar para:* " ++ String.intercalate ", " failedUsers

/-- Handler `confirm_send_action` (part_002:202-302), sequential big-step form.

Shape of the source: after `ack()`, look the job up (absent → return),
check the acting user (mismatch → access-denied modal, return); then a
`try` block runs `chat.update("Enviando...")`, the dispatch loop, the final
report `chat.update`, and `trackFile(jobId)`; the `catch` posts the
critical-error update; the `finally` deletes the job entry and unlinks the
temporary file unconditionally.  Effects record calls in issue order,
including a call that then throws; `trackMessage` entries accumulate as the
loop runs, and `trackFile` is reached only when no step threw. -/
def confirm_send_action (env : ConfirmEnv) (s : AppState)
    (jobId clickingUser channel ts : String) : AppState × List Eff :=
  match jobLookup s.pendingJobs jobId with
  | none => (s, [])
  | some job =>
    if !(clickingUser == job.userId) then
      (s, [.accessDeniedModal clickingUser])
    else
      let cleaned : List (String × Job) := jobErase s.pendingJobs jobId
      let remaining : List String := s.files.erase job.filePath
      if !env.updateOk then
        (⟨cleaned, s.processedFiles, s.sentMessages, remaining⟩,
         [.updateMsg channel ts (sendingText job.data.length),
          .updateMsg channel ts criticalErrText])
      else
        let out := dispatchRowsB env.send 0 job.data
        let effs := Eff.updateMsg channel ts (sendingText job.data.length)
          :: out.2.2.1
          ++ [Eff.updateMsg channel ts (reportTextB out.1 job.data.length out.2.1)]
        if env.reportUpdateOk then
          (⟨cleaned, jobId :: s.processedFiles, out.2.2.2 ++ s.sentMessages, remaining⟩,
           effs)
        else
          (⟨cleaned, s.processedFiles, out.2.2.2 ++ s.sentMessages, remaining⟩,
           effs ++ [Eff.updateMsg channel ts criticalErrText])

def cancelText (u : String) : String :=
  "Operação cancelada por <@" ++ u ++ ">. O arquivo não será processado."

/-- Handler `cancel_send_action` (part_002:306-332).  Unlike the confirm handler,
the cancel handler has no `try/finally`: when its `chat.update` throws, the
rejection propagates before the `pendingJobs.delete` / `fs.unlinkSync`
lines run, so no cleanup happens on that path. -/
def cancel_send_action (env : ConfirmEnv) (s : AppState)
    (jobId clickingUser channel ts : String) : AppState × List Eff :=
  match jobLookup s.pendingJobs jobId with
  | none => (s, [])
  | some job =>
    if !(clickingUser == job.userId) then
      (s, [.accessDeniedModal clickingUser])
    else if env.updateOk then
      (⟨jobErase s.pendingJobs jobId, s.processedFiles, s.sentMessages,
        s.files.erase job.filePath⟩,
       [.updateMsg channel ts (cancelText clickingUser)])
    else
      (s, [.updateMsg channel ts (cancelText clickingUser)])

/-! ## file_shared handler of part_002 (lines 116-199) -/

structure FileEnv where
  infoOk : Bool
  isCsv : Bool
  downloadOk : Bool
  content : CsvFile
  fileName : String
  infoErrMsg : String
  downloadErrMsg : String

def tempPath (fileId : String) : String := fileId ++ "-temp.csv"

def uploadErrText (msg : String) : String :=
  "❌ Ocorreu um erro ao processar o arquivo: " ++ msg

/-- Text of the confirmation prompt block (part_002:157). -/
def promptText (userId fileName : String) (n : Nat) : String :=
  "Olá <@" ++ userId ++ ">! Encontrei *" ++ toString n ++ " usuários* no arquivo `"
    ++ fileName ++ "`.\n\nDeseja enviar as notificações de salário para todos?"

/-- Handler `file_shared` (part_002:116-199).  Note that this iteration calls
`trackFile` only inside the confirm handler, never here: the early-return
guard consults `processedFiles` alone, so a merely staged (unconfirmed)
artifact is not suppressed and is re-staged (`pendingJobs.set` overwrites)
with a fresh confirmation prompt.  On a reader error the `catch` posts the
error notice and unlinks the just-downloaded temp file. -/
def file_shared (env : FileEnv) (s : AppState) (fileId channelId userId : String) :
    AppState × List Eff :=
  if s.processedFiles.contains fileId then (s, [])
  else if !env.infoOk then (s, [.postMsg channelId (uploadErrText env.infoErrMsg)])
  else if !env.isCsv then (s, [])
  else if !env.downloadOk then
    (s, [.postMsg channelId (uploadErrText env.downloadErrMsg)])
  else
    let fp := tempPath fileId
    match readCsvFile env.content with
    | .error e =>
      ((⟨s.pendingJobs, s.processedFiles, s.sentMessages,
         (fp :: s.files).erase fp⟩ : AppState),
       [.postMsg channelId (uploadErrText (csvErrMessage e))])
    | .ok data =>
      (⟨jobSet s.pendingJobs fileId ⟨data, fp, channelId, userId⟩,
        s.processedFiles, s.sentMessages, fp :: s.files⟩,
       [.postMsg channelId (promptText userId env.fileName data.length)])

/-! ## Race model for two concurrent confirm actions (part_002:202-302)

Two invocations A and B of `confirm_send_action` on the same job identifier
run as cooperatively scheduled tasks; the handler suspends at each `await`,
so its synchronous sections interleave.  Program-counter phases of one
invocation:

  * `0` — the synchronous section from `pendingJobs.get(jobId)` through the
    acting-user guard (lines 205-228): if the job is present the handler
    passes the check and suspends at the first `await client.chat.update`
    (line 232), moving to phase 1; if absent it returns (phase 3).
  * `1` — the dispatch loop and report update (lines 230-288) run; this
    counts as one dispatch.  The handler then reaches its `finally`.
  * `2` — the `finally` (lines 296-301) deletes the job entry.
  * `3` — done.

`raceStep1` executes one phase; `raceRun` folds a schedule (`true` = step
invocation A, `false` = step B) over the joint state.  There is no lock and
the delete only happens in phase 2, after the dispatch of phase 1. -/

structure RaceState where
  jobPresent : Bool
  pcA : Nat
  pcB : Nat
  dispatchCount : Nat
  deriving Repr, DecidableEq

def raceStep1 (present : Bool) (pc : Nat) : Nat × Bool × Bool :=
  match pc with
  | 0 => if present then (1, present, false) else (3, present, false)
  | 1 => (2, present, true)
  | 2 => (3, false, false)
  | _ => (pc, present, false)

def raceStep (st : RaceState) (isA : Bool) : RaceState :=
  if isA then
    let next := raceStep1 st.jobPresent st.pcA
    ⟨next.2.1, next.1, st.pcB, st.dispatchCount + (if next.2.2 then 1 else 0)⟩
  else
    let next := raceStep1 st.jobPresent st.pcB
    ⟨next.2.1, st.pcA, next.1, st.dispatchCount + (if next.2.2 then 1 else 0)⟩

def raceRun (sched : List Bool) (st : RaceState) : RaceState :=
  match sched with
  | [] => st
  | b :: rest => raceRun rest (raceStep st b)

/-- Both handlers start at their job lookup with the job staged. -/
def raceInit : RaceState := ⟨true, 0, 0, 0⟩

/-! ## String-containment helpers for report statements -/

def strPre (a b : String) : Prop := a.data <+: b.data

def occursIn (a b : String) : Prop := a.data <:+: b.data

/-! ## Concrete inputs used by witnesses and counterexamples -/

def okHeaders : List String :=
  ["Slack User", "Name", "Salary", "Faltas", "Feriados Trabalhados"]

def c2Job : Job := ⟨[], "F1-temp.csv", "C1", "U1"⟩

def c2State : AppState := ⟨[("F1", c2Job)], [], [], ["F1-temp.csv"]⟩

def c2Env : ConfirmEnv := ⟨fun _ => none, false, false⟩

def c3Row : Row := ⟨some "U9", some "Alice", some "1000", some "0", some "0"⟩

def c3Csv : CsvFile := ⟨okHeaders, [c3Row]⟩

def c3Job : Job := ⟨[c3Row], "F1-temp.csv", "C1", "U1"⟩

def c3State : AppState := ⟨[("F1", c3Job)], [], [], ["F1-temp.csv"]⟩

def c3Env : FileEnv := ⟨true, true, true, c3Csv, "folha.csv", "", ""⟩

def c3DoneState : AppState := ⟨[], ["F2"], [], []⟩

def c4Sent : List (String × String × String) := [("T1", "U1", "Alice")]

def c5Row : Row := ⟨some "U1", some "Bob", none, some "0", some "0"⟩

def c6Csv : CsvFile := ⟨["Name", "Salary"], []⟩

def c7Job : Job := ⟨[], "F3-temp.csv", "C1", "U1"⟩

def c7State : AppState := ⟨[("F3", c7Job)], [], [], ["F3-temp.csv"]⟩

def c7Env : ConfirmEnv := ⟨fun _ => some "T1", true, true⟩

def c8Row : Row := ⟨some "U1", some "Ana", some "500", some "1", some "2"⟩

def c8Csv : CsvFile := ⟨okHeaders, [c8Row]⟩

def c10Row : Row := ⟨some "U1", some "Eva", some "700", some "12abc", some "0"⟩

/-! ## Supporting lemmas: strings -/

theorem strPre_of_append (a b : String) : strPre a (a ++ b) := by
  unfold strPre
  rw [String.data_append]
  exact List.prefix_append _ _

theorem strPre_trans {a b c : String} (h1 : strPre a b) (h2 : strPre b c) :
    strPre a c := List.IsPrefix.trans h1 h2

theorem strData_foldl (l : List String) (s : String) :
    (l.foldl (fun r t => r ++ t) s).data = s.data ++ (l.map String.data).flatten := by
  induction l generalizing s with
  | nil => simp
  | cons a t ih => simp [List.foldl_cons, ih, String.data_append, List.append_assoc]

theorem strJoin_data (l : List String) :
    (String.join l).data = (l.map String.data).flatten := by
  simp [String.join, strData_foldl]

theorem strJoin_ne (l : List String) (x : String) (hx : x ∈ l) (hne : x.data ≠ []) :
    ¬ (String.join l = "") := by
  intro h
  have hd : (String.join l).data = [] := by rw [h]
  rw [strJoin_data] at hd
  exact hne ((List.flatten_eq_nil_iff.mp hd) x.data (List.mem_map_of_mem _ hx))

theorem occursIn_join (l : List String) (x : String) (hx : x ∈ l) :
    occursIn x (String.join l) := by
  unfold occursIn
  rw [strJoin_data]
  exact List.infix_of_mem_flatten (List.mem_map_of_mem _ hx)

theorem occursIn_of_middle (pre x post : String) : occursIn x (pre ++ x ++ post) := by
  unfold occursIn
  rw [String.data_append, String.data_append]
  exact ⟨pre.data, post.data, by simp⟩

theorem occursIn_append_left (x a b : String) (h : occursIn x a) :
    occursIn x (a ++ b) := by
  unfold occursIn at h ⊢
  rw [String.data_append]
  exact h.trans ⟨[], b.data, by simp⟩

theorem occursIn_append_right (x a b : String) (h : occursIn x b) :
    occursIn x (a ++ b) := by
  unfold occursIn at h ⊢
  rw [String.data_append]
  obtain ⟨s2, t2, ht⟩ := h
  exact ⟨a.data ++ s2, t2, by rw [← ht]; simp [List.append_assoc]⟩

/-! ## Supporting lemmas: report structure -/

theorem reportBase_prefix_report (res : DispatchResult) (total : Nat) :
    strPre (reportBase res.successCount total) (reportText res total) := by
  simp only [reportText]
  split_ifs <;>
    simp [strPre, String.data_append, List.append_assoc, List.prefix_append,
      List.prefix_rfl]

theorem detailLine_data_ne (n s : String) (f h : Int) :
    (detailLine n s f h).data ≠ [] := by
  intro h0
  simp only [detailLine, String.data_append, List.append_eq_nil] at h0
  exact absurd h0.1.1.1.1.1.1.1 (by decide)

theorem report_contains_details (res : DispatchResult) (total : Nat) (line : String)
    (hl : line ∈ res.detailLines) (hne : line.data ≠ []) :
    occursIn "*Detalhes enviados:*" (reportText res total)
      ∧ occursIn line (reportText res total) := by
  have hjoin : ¬ (String.join res.detailLines = "") := strJoin_ne _ _ hl hne
  have hbeq : (String.join res.detailLines == "") = false := beq_eq_false_iff_ne.mpr hjoin
  have h0 : occursIn "*Detalhes enviados:*" "\n\n*Detalhes enviados:*" :=
    ⟨"\n\n".data, [], by decide⟩
  have hmark : occursIn "*Detalhes enviados:*"
      (reportBase res.successCount total ++ "\n\n*Detalhes enviados:*"
        ++ String.join res.detailLines) :=
    List.IsInfix.trans h0 (occursIn_of_middle _ _ _)
  have hline : occursIn line
      (reportBase res.successCount total ++ "\n\n*Detalhes enviados:*"
        ++ String.join res.detailLines) :=
    occursIn_append_right _ _ _ (occursIn_join _ _ hl)
  simp only [reportText, hbeq, Bool.false_eq_true, if_false]
  split_ifs
  · exact ⟨hmark, hline⟩
  · exact ⟨occursIn_append_left _ _ _ (occursIn_append_left _ _ _ hmark),
      occursIn_append_left _ _ _ (occursIn_append_left _ _ _ hline)⟩

/-! ## Supporting lemmas: acknowledgment map -/

theorem ackLookup_erase (sent : List (String × String × String)) (ts : String) :
    ackLookup (ackErase sent ts) ts = none := by
  induction sent with
  | nil => rfl
  | cons p rest ih =>
    by_cases h : p.1 == ts
    · simpa [ackErase, h] using ih
    · simpa [ackErase, ackLookup, h] using ih

/-! ## Supporting lemmas: race model -/

theorem raceRun_append (l1 l2 : List Bool) (st : RaceState) :
    raceRun (l1 ++ l2) st = raceRun l2 (raceRun l1 st) := by
  induction l1 generalizing st with
  | nil => rfl
  | cons b t ih => simp [raceRun, ih]

theorem raceRun_doneA (n : Nat) :
    raceRun (List.replicate n true) ⟨false, 3, 0, 1⟩ = ⟨false, 3, 0, 1⟩ := by
  induction n with
  | zero => rfl
  | succ m ih =>
    simp only [List.replicate_succ, raceRun]
    rw [show raceStep ⟨false, 3, 0, 1⟩ true = ⟨false, 3, 0, 1⟩ from rfl]
    exact ih

theorem raceRun_doneBoth (m : Nat) :
    raceRun (List.replicate m false) ⟨false, 3, 3, 1⟩ = ⟨false, 3, 3, 1⟩ := by
  induction m with
  | zero => rfl
  | succ m2 ih =>
    simp only [List.replicate_succ, raceRun]
    rw [show raceStep ⟨false, 3, 3, 1⟩ false = ⟨false, 3, 3, 1⟩ from rfl]
    exact ih

/-! ## Supporting lemmas: dispatch loop -/

theorem rowValid_elim (r : Row) (hv : rowValid r = true) :
    rowMissing r = false ∧ (∃ f, numField r.faltas = some f) ∧
      ∃ h2, numField r.feriados = some h2 := by
  cases hm : rowMissing r with
  | false =>
    cases hf : numField r.faltas with
    | none => exact absurd hv (by simp [rowValid, rowFails, rowInvalidNum, hm, hf])
    | some f =>
      cases hh : numField r.feriados with
      | none => exact absurd hv (by simp [rowValid, rowFails, rowInvalidNum, hm, hf, hh])
      | some h2 => exact ⟨rfl, ⟨f, rfl⟩, ⟨h2, rfl⟩⟩
  | true => exact absurd hv (by simp [rowValid, rowFails, hm])

theorem attempts_ge (send : Nat → Option String) :
    ∀ (rows : List Row) (k i : Nat),
      i ∈ (processRows send k rows).attempts → k ≤ i := by
  intro rows
  induction rows with
  | nil =>
    intro k i h
    simp [processRows, emptyDispatch] at h
  | cons r rs ih =>
    intro k i h
    cases hm : rowMissing r with
    | true =>
      rw [processRows] at h
      simp only [hm, if_true] at h
      exact Nat.le_of_succ_le (ih (k + 1) i h)
    | false =>
      rw [processRows] at h
      cases hf : numField r.faltas with
      | none =>
        simp only [hm, hf] at h
        exact Nat.le_of_succ_le (ih (k + 1) i h)
      | some f =>
        cases hh : numField r.feriados with
        | none =>
          simp only [hm, hf, hh] at h
          exact Nat.le_of_succ_le (ih (k + 1) i h)
        | some h2 =>
          cases hs : send k with
          | none =>
            simp only [hm, hf, hh, hs] at h
            simp at h
            rcases h with h | h
            · omega
            · exact Nat.le_of_succ_le (ih (k + 1) i h)
          | some ts =>
            simp only [hm, hf, hh, hs] at h
            simp at h
            rcases h with h | h
            · omega
            · exact Nat.le_of_succ_le (ih (k + 1) i h)

theorem attempts_of_valid (send : Nat → Option String) :
    ∀ (rows : List Row) (k j : Nat) (r : Row),
      rows.get? j = some r → rowValid r = true →
      (k + j) ∈ (processRows send k rows).attempts := by
  intro rows
  induction rows with
  | nil => intro k j r hg _; simp at hg
  | cons a rs ih =>
    intro k j r hg hv
    cases j with
    | zero =>
      obtain rfl : a = r := by simpa using hg
      obtain ⟨hm, ⟨f, hf⟩, ⟨h2, hh⟩⟩ := rowValid_elim a hv
      cases hs : send k with
      | none => simp [processRows, hm, hf, hh, hs]
      | some ts => simp [processRows, hm, hf, hh, hs]
    | succ j2 =>
      have hg2 : rs.get? j2 = some r := by simpa using hg
      have ihm := ih (k + 1) j2 r hg2 hv
      have harith : k + (j2 + 1) = (k + 1) + j2 := by omega
      rw [harith]
      cases hm : rowMissing a with
      | true => simpa [processRows, hm] using ihm
      | false =>
        cases hf : numField a.faltas with
        | none => simpa [processRows, hm, hf] using ihm
        | some f =>
          cases hh : numField a.feriados with
          | none => simpa [processRows, hm, hf, hh] using ihm
          | some h2 =>
            cases hs : send k with
            | none =>
              simp [processRows, hm, hf, hh, hs]
              exact Or.inr ihm
            | some ts =>
              simp [processRows, hm, hf, hh, hs]
              exact Or.inr ihm

theorem rowFails_num_none (r : Row) (hm : rowMissing r = false)
    (hf : rowFails r = true) :
    numField r.faltas = none ∨ numField r.feriados = none := by
  cases hf1 : numField r.faltas with
  | none => exact Or.inl rfl
  | some f =>
    cases hh1 : numField r.feriados with
    | none => exact Or.inr rfl
    | some h2 =>
      exact absurd hf (by simp [rowFails, rowInvalidNum, hm, hf1, hh1])

theorem attempts_not_of_fails (send : Nat → Option String) :
    ∀ (rows : List Row) (k j : Nat) (r : Row),
      rows.get? j = some r → rowFails r = true →
      (k + j) ∉ (processRows send k rows).attempts := by
  intro rows
  induction rows with
  | nil => intro k j r hg _ _; simp at hg
  | cons a rs ih =>
    intro k j r hg hfl hmem
    cases j with
    | zero =>
      obtain rfl : a = r := by simpa using hg
      have hge : (k + 1) ≤ k + 0 := by
        cases hm : rowMissing a with
        | true =>
          rw [processRows] at hmem
          simp only [hm, if_true] at hmem
          exact attempts_ge send rs (k + 1) _ hmem
        | false =>
          rcases rowFails_num_none a hm hfl with hn | hn
          · rw [processRows] at hmem
            simp only [hm, hn] at hmem
            exact attempts_ge send rs (k + 1) _ hmem
          · cases hf1 : numField a.faltas with
            | none =>
              rw [processRows] at hmem
              simp only [hm, hf1] at hmem
              exact attempts_ge send rs (k + 1) _ hmem
            | some f =>
              rw [processRows] at hmem
              simp only [hm, hf1, hn] at hmem
              exact attempts_ge send rs (k + 1) _ hmem
      omega
    | succ j2 =>
      have hg2 : rs.get? j2 = some r := by simpa using hg
      have harith : k + (j2 + 1) = (k + 1) + j2 := by omega
      rw [harith] at hmem
      have hnot := ih (k + 1) j2 r hg2 hfl
      cases hm : rowMissing a with
      | true =>
        rw [processRows] at hmem
        simp only [hm, if_true] at hmem
        exact hnot hmem
      | false =>
        cases hf1 : numField a.faltas with
        | none =>
          rw [processRows] at hmem
          simp only [hm, hf1] at hmem
          exact hnot hmem
        | some f =>
          cases hh1 : numField a.feriados with
          | none =>
            rw [processRows] at hmem
            simp only [hm, hf1, hh1] at hmem
            exact hnot hmem
          | some h2 =>
            cases hs : send k with
            | none =>
              rw [processRows] at hmem
              simp only [hm, hf1, hh1, hs] at hmem
              simp at hmem
              rcases hmem with hmem | hmem
              · omega
              · exact hnot hmem
            | some ts =>
              rw [processRows] at hmem
              simp only [hm, hf1, hh1, hs] at hmem
              simp at hmem
              rcases hmem with hmem | hmem
              · omega
              · exact hnot hmem

theorem attempts_count_of_valid (send : Nat → Option String) :
    ∀ (rows : List Row) (k j : Nat) (r : Row),
      rows.get? j = some r → rowValid r = true →
      (processRows send k rows).attempts.count (k + j) = 1 := by
  intro rows
  induction rows with
  | nil => intro k j r hg _; simp at hg
  | cons a rs ih =>
    intro k j r hg hv
    cases j with
    | zero =>
      obtain rfl : a = r := by simpa using hg
      obtain ⟨hm, ⟨f, hf⟩, ⟨h2, hh⟩⟩ := rowValid_elim a hv
      have hnot : ¬ k ∈ (processRows send (k + 1) rs).attempts := by
        intro hmem
        have := attempts_ge send rs (k + 1) _ hmem
        omega
      have hz : (processRows send (k + 1) rs).attempts.count k = 0 :=
        List.count_eq_zero_of_not_mem hnot
      cases hs : send k with
      | none => simp [processRows, hm, hf, hh, hs, List.count_cons, hz]
      | some ts => simp [processRows, hm, hf, hh, hs, List.count_cons, hz]
    | succ j2 =>
      have hg2 : rs.get? j2 = some r := by simpa using hg
      have ihm := ih (k + 1) j2 r hg2 hv
      have harith : k + (j2 + 1) = (k + 1) + j2 := by omega
      rw [harith]
      cases hm : rowMissing a with
      | true => simpa [processRows, hm] using ihm
      | false =>
        cases hf : numField a.faltas with
        | none => simpa [processRows, hm, hf] using ihm
        | some f =>
          cases hh : numField a.feriados with
          | none => simpa [processRows, hm, hf, hh] using ihm
          | some h2 =>
            have hne : ¬ ((k + 1) + j2 = k) := by omega
            cases hs : send k with
            | none =>
              simp [processRows, hm, hf, hh, hs, List.count_cons, hne, ihm]
            | some ts =>
              simp [processRows, hm, hf, hh, hs, List.count_cons, hne, ihm]

theorem failed_eq_failLabels (send : Nat → Option String) :
    ∀ (rows : List Row) (k : Nat),
      (processRows send k rows).failedUsers = failLabels send k rows := by
  intro rows
  induction rows with
  | nil => intro k; rfl
  | cons a rs ih =>
    intro k
    cases hm : rowMissing a with
    | true => simp [processRows, failLabels, failLabel, hm, ih]
    | false =>
      cases hf : numField a.faltas with
      | none => simp [processRows, failLabels, failLabel, hm, hf, ih]
      | some f =>
        cases hh : numField a.feriados with
        | none => simp [processRows, failLabels, failLabel, hm, hf, hh, ih]
        | some h2 =>
          cases hs : send k with
          | none => simp [processRows, failLabels, failLabel, hm, hf, hh, hs, ih]
          | some ts => simp [processRows, failLabels, failLabel, hm, hf, hh, hs, ih]

theorem failLabels_mem (send : Nat → Option String) :
    ∀ (rows : List Row) (k j : Nat) (r : Row) (l : String),
      rows.get? j = some r → failLabel send (k + j) r = some l →
      l ∈ failLabels send k rows := by
  intro rows
  induction rows with
  | nil => intro k j r l hg _; simp at hg
  | cons a rs ih =>
    intro k j r l hg hlab
    cases j with
    | zero =>
      obtain rfl : a = r := by simpa using hg
      rw [Nat.add_zero] at hlab
      simp [failLabels, hlab]
    | succ j2 =>
      have hg2 : rs.get? j2 = some r := by simpa using hg
      have harith : k + (j2 + 1) = (k + 1) + j2 := by omega
      rw [harith] at hlab
      have ihm := ih (k + 1) j2 r l hg2 hlab
      cases hl0 : failLabel send k a with
      | none => simpa [failLabels, hl0] using ihm
      | some l0 => simp [failLabels, hl0, ihm]

theorem details_mem (send : Nat → Option String) :
    ∀ (rows : List Row) (k j : Nat) (r : Row) (f h2 : Int) (ts : String),
      rows.get? j = some r → rowMissing r = false →
      numField r.faltas = some f → numField r.feriados = some h2 →
      send (k + j) = some ts →
      detailLine (jsName r) (jsSalary r) f h2 ∈ (processRows send k rows).detailLines := by
  intro rows
  induction rows with
  | nil => intro k j r f h2 ts hg _ _ _ _; simp at hg
  | cons a rs ih =>
    intro k j r f h2 ts hg hm hf hh hs
    cases j with
    | zero =>
      obtain rfl : a = r := by simpa using hg
      rw [Nat.add_zero] at hs
      simp [processRows, hm, hf, hh, hs]
    | succ j2 =>
      have hg2 : rs.get? j2 = some r := by simpa using hg
      have harith : k + (j2 + 1) = (k + 1) + j2 := by omega
      rw [harith] at hs
      have ihm := ih (k + 1) j2 r f h2 ts hg2 hm hf hh hs
      cases hm0 : rowMissing a with
      | true => simpa [processRows, hm0] using ihm
      | false =>
        cases hf0 : numField a.faltas with
        | none => simpa [processRows, hm0, hf0] using ihm
        | some f0 =>
          cases hh0 : numField a.feriados with
          | none => simpa [processRows, hm0, hf0, hh0] using ihm
          | some h0 =>
            cases hs0 : send k with
            | none => simpa [processRows, hm0, hf0, hh0, hs0] using ihm
            | some ts0 => simp [processRows, hm0, hf0, hh0, hs0, ihm]

theorem dms_mem (send : Nat → Option String) :
    ∀ (rows : List Row) (k j : Nat) (r : Row) (f h2 : Int),
      rows.get? j = some r → rowMissing r = false →
      numField r.faltas = some f → numField r.feriados = some h2 →
      (jsUser r, generateMessage (jsName r) (jsSalary r) f h2) ∈
        (processRows send k rows).dms := by
  intro rows
  induction rows with
  | nil => intro k j r f h2 hg _ _ _; simp at hg
  | cons a rs ih =>
    intro k j r f h2 hg hm hf hh
    cases j with
    | zero =>
      obtain rfl : a = r := by simpa using hg
      cases hs : send k with
      | none => simp [processRows, hm, hf, hh, hs]
      | some ts => simp [processRows, hm, hf, hh, hs]
    | succ j2 =>
      have hg2 : rs.get? j2 = some r := by simpa using hg
      have ihm := ih (k + 1) j2 r f h2 hg2 hm hf hh
      cases hm0 : rowMissing a with
      | true => simpa [processRows, hm0] using ihm
      | false =>
        cases hf0 : numField a.faltas with
        | none => simpa [processRows, hm0, hf0] using ihm
        | some f0 =>
          cases hh0 : numField a.feriados with
          | none => simpa [processRows, hm0, hf0, hh0] using ihm
          | some h0 =>
            cases hs0 : send k with
            | none => simp [processRows, hm0, hf0, hh0, hs0, ihm]
            | some ts0 => simp [processRows, hm0, hf0, hh0, hs0, ihm]

theorem failLabel_of_fails (send : Nat → Option String) (i : Nat) (r : Row)
    (hf : rowFails r = true) :
    ∃ l, failLabel send i r = some l ∧
      (truthy r.name = true → strPre (jsName r) l) := by
  cases hm : rowMissing r with
  | true =>
    cases hn : truthy r.name with
    | true =>
      exact ⟨jsName r, by simp [failLabel, hm, hn], fun _ => List.prefix_rfl⟩
    | false =>
      exact ⟨unknownName, by simp [failLabel, hm, hn], fun h => absurd h (by simp [hn])⟩
  | false =>
    rcases rowFails_num_none r hm hf with hn | hn
    · exact ⟨jsName r ++ " (dados numéricos inválidos)",
        by simp [failLabel, hm, hn], fun _ => strPre_of_append _ _⟩
    · cases hf1 : numField r.faltas with
      | none =>
        exact ⟨jsName r ++ " (dados numéricos inválidos)",
          by simp [failLabel, hm, hf1], fun _ => strPre_of_append _ _⟩
      | some f =>
        exact ⟨jsName r ++ " (dados numéricos inválidos)",
          by simp [failLabel, hm, hf1, hn], fun _ => strPre_of_append _ _⟩

/-! ## Supporting lemmas: JavaScript parseInt -/

theorem digit_not_space {c : Char} (h : c.isDigit = true) : isJsSpace c = false := by
  by_contra hs
  rw [Bool.not_eq_false] at hs
  simp only [isJsSpace, Bool.or_eq_true, beq_iff_eq] at hs
  rcases hs with ((((h1 | h1) | h1) | h1) | h1) | h1 <;> subst h1 <;>
    exact absurd h (by decide)

theorem digit_not_dash {c : Char} (h : c.isDigit = true) : (c == '-') = false := by
  by_contra hs
  rw [Bool.not_eq_false, beq_iff_eq] at hs
  subst hs
  exact absurd h (by decide)

theorem digit_not_plus {c : Char} (h : c.isDigit = true) : (c == '+') = false := by
  by_contra hs
  rw [Bool.not_eq_false, beq_iff_eq] at hs
  subst hs
  exact absurd h (by decide)

theorem leadDigits_append (d t : List Char) (hd : ∀ c ∈ d, c.isDigit = true)
    (ht : ∀ c, t.head? = some c → c.isDigit = false) :
    leadDigits (d ++ t) = d := by
  induction d with
  | nil =>
    cases t with
    | nil => rfl
    | cons c t2 =>
      have := ht c rfl
      simp [leadDigits, List.takeWhile_cons, this]
  | cons c d2 ih =>
    have hc : c.isDigit = true := hd c (List.mem_cons_self c d2)
    have ih2 := ih (fun x hx => hd x (List.mem_cons_of_mem c hx))
    simp [leadDigits, List.takeWhile_cons, hc] at ih2 ⊢
    exact ih2

theorem jsParseInt_digit_run (s : String) (d t : List Char)
    (hs : s.data = d ++ t) (hne : d ≠ []) (hd : ∀ c ∈ d, c.isDigit = true)
    (ht : ∀ c, t.head? = some c → c.isDigit = false) :
    jsParseInt s = some ((digitsVal d : Int)) := by
  cases d with
  | nil => exact absurd rfl hne
  | cons c d2 =>
    have hc : c.isDigit = true := hd c (List.mem_cons_self c d2)
    have hlead : leadDigits ((c :: d2) ++ t) = c :: d2 := leadDigits_append _ _ hd ht
    unfold jsParseInt
    rw [hs, List.cons_append]
    simp only [skipWs, digit_not_space hc, Bool.false_eq_true, if_false,
      digit_not_dash hc, digit_not_plus hc]
    rw [← List.cons_append, hlead]

theorem jsParseInt_head_digit (u : String) (c : Char) (cs : List Char)
    (hu : u.data = c :: cs) (hc : c.isDigit = true) :
    jsParseInt u ≠ none := by
  have hlead : leadDigits (c :: cs) = c :: cs.takeWhile Char.isDigit := by
    simp [leadDigits, List.takeWhile_cons, hc]
  unfold jsParseInt
  rw [hu]
  simp only [skipWs, digit_not_space hc, Bool.false_eq_true, if_false,
    digit_not_dash hc, digit_not_plus hc]
  rw [hlead]
  simp

theorem str_beq_empty_false (s : String) (h : s.data ≠ []) : (s == "") = false := by
  apply beq_eq_false_iff_ne.mpr
  intro he
  apply h
  rw [he]

/-! ## Claim theorems -/

/-- C1 (counterexample): the confirm handler's read-check-act-delete
sequence is NOT effectively atomic.  In the two-invocation race model of
`confirm_send_action`, the alternating schedule A,B,A,B,A,B lets both
invocations pass the job-exists check (phase 0) before either reaches the
job-deleting `finally` (phase 2), so both run the dispatch loop: the
dispatch count reaches 2, refuting at-most-one dispatch per job. -/
theorem C1_confirm_race_not_atomic_counterexample :
    ¬ ((raceRun [true, false, true, false, true, false] raceInit).dispatchCount ≤ 1) := by
  decide

/-- C1 (amended): at-most-one dispatch per job holds only without
interleaving: for every schedule in which the first confirm invocation runs
to completion (its three phases) before the second starts, the dispatch
count is at most 1 — the completed invocation's `finally` has deleted the
job, so the second invocation's job lookup fails and it dispatches
nothing. -/
theorem C1_sequential_at_most_one_dispatch (n m : Nat) :
    (raceRun (List.replicate (3 + n) true ++ List.replicate m false)
        raceInit).dispatchCount ≤ 1 := by
  rw [raceRun_append]
  have h3 : raceRun (List.replicate (3 + n) true) raceInit = ⟨false, 3, 0, 1⟩ := by
    rw [List.replicate_add, raceRun_append]
    rw [show raceRun (List.replicate 3 true) raceInit = ⟨false, 3, 0, 1⟩ from rfl]
    exact raceRun_doneA n
  rw [h3]
  cases m with
  | zero => decide
  | succ m2 =>
    rw [List.replicate_succ]
    simp only [raceRun]
    rw [show raceStep ⟨false, 3, 0, 1⟩ false = ⟨false, 3, 3, 1⟩ from rfl]
    rw [raceRun_doneBoth]

/-- C2 (code bug): cleanup is NOT unconditional on all exit paths of the
cancel handler.  `cancel_send_action` has no `try/finally`
(part_002:306-332): when its `chat.update` call throws (oracle
`updateOk = false`), the handler exits before `pendingJobs.delete` and
`fs.unlinkSync` run, leaving the staged job entry and the temporary
artifact file in place — contradicting the spec's "cleanup is unconditional
on all exit paths of the confirm/cancel handlers" (the confirm handler, by
contrast, does use `try/finally`). -/
theorem C2_cancel_update_error_skips_cleanup :
    (cancel_send_action c2Env c2State "F1" "U1" "C1" "T1").1 = c2State
      ∧ jobLookup (cancel_send_action c2Env c2State "F1" "U1" "C1" "T1").1.pendingJobs "F1"
          = some c2Job
      ∧ "F1-temp.csv" ∈ (cancel_send_action c2Env c2State "F1" "U1" "C1" "T1").1.files := by
  refine ⟨rfl, rfl, ?_⟩
  decide

/-- C3 (counterexample): a file-ready signal for an artifact that has a
staged (not yet confirmed) job is NOT a no-op in part_002: `trackFile` is
only called on confirm, so the guard (which consults `processedFiles`
alone) does not fire; the handler re-parses the artifact, overwrites the
job entry, and posts a second confirmation prompt to the channel. -/
theorem C3_staged_resignal_counterexample :
    (file_shared c3Env c3State "F1" "C1" "U1").2
        = [Eff.postMsg "C1" (promptText "U1" "folha.csv" 1)]
      ∧ (file_shared c3Env c3State "F1" "C1" "U1").2 ≠ [] := by
  constructor
  · decide
  · decide

/-- C3 (amended): re-delivery of a file-ready signal is a no-op exactly for
artifact identifiers already marked processed (present in
`processedFiles`): the handler returns immediately, posting nothing and
leaving the whole state unchanged.  An identifier with a merely staged job
is instead re-staged with a second prompt (see the counterexample). -/
theorem C3_processed_resignal_noop (env : FileEnv) (s : AppState)
    (fileId channelId userId : String)
    (h : s.processedFiles.contains fileId = true) :
    file_shared env s fileId channelId userId = (s, []) := by
  have hmem : fileId ∈ s.processedFiles := by simpa using h
  simp [file_shared, hmem]

theorem C3_processed_resignal_noop_witness :
    c3DoneState.processedFiles.contains "F2" = true
      ∧ file_shared c3Env c3DoneState "F2" "C1" "U1" = (c3DoneState, []) :=
  ⟨by decide, C3_processed_resignal_noop c3Env c3DoneState "F2" "C1" "U1" (by decide)⟩

/-- C4: for a recorded acknowledgment entry keyed by message timestamp
`ts`, a white-check-mark reaction from the stored recipient `u` produces
exactly one admin-channel notice carrying the stored name and deletes the
entry (a second identical reaction finds no entry and is a no-op); a
reaction from any other user leaves the map unchanged and posts nothing;
and a reaction on an unknown (or expired, hence absent) timestamp is a
no-op. -/
theorem C4_ack_resolution (sent : List (String × String × String))
    (ts user u name : String)
    (h : ackLookup sent ts = some (u, name)) :
    (u = user →
      reaction_added sent "white_check_mark" ts user
          = (ackErase sent ts, some (ackNotice name user))
        ∧ ackLookup (ackErase sent ts) ts = none
        ∧ reaction_added (ackErase sent ts) "white_check_mark" ts user
            = (ackErase sent ts, none))
    ∧ (u ≠ user → reaction_added sent "white_check_mark" ts user = (sent, none))
    ∧ (∀ (m : List (String × String × String)) (r t usr : String),
        ackLookup m t = none → reaction_added m r t usr = (m, none)) := by
  refine ⟨?_, ?_, ?_⟩
  · intro he
    subst he
    refine ⟨?_, ackLookup_erase sent ts, ?_⟩
    · simp [reaction_added, h]
    · simp [reaction_added, ackLookup_erase]
  · intro hne
    have hbe : (u == user) = false := beq_eq_false_iff_ne.mpr hne
    simp [reaction_added, h, hbe]
  · intro m r t usr hm
    simp [reaction_added, hm]

theorem C4_ack_resolution_witness :
    ackLookup c4Sent "T1" = some ("U1", "Alice")
      ∧ reaction_added c4Sent "white_check_mark" "T1" "U1"
          = (ackErase c4Sent "T1", some (ackNotice "Alice" "U1")) :=
  ⟨by decide, ((C4_ack_resolution c4Sent "T1" "U1" "U1" "Alice" (by decide)).1 rfl).1⟩

/-- C5: a row whose recipient identifier, amount, or display name is absent
(falsy), or whose absences / holidays-worked field fails `parseInt`, is
never attempted (its index reaches no `chat.postMessage` call) and is
recorded in the failure list: the failure list is exactly the in-order list
of per-row failure labels (so row order is preserved), the failing row
contributes a label that starts with its display name when one is present,
and the aggregate report opens with the success count out of the total row
count. -/
theorem C5_invalid_row_skipped_and_reported (send : Nat → Option String)
    (rows : List Row) (i : Nat) (r : Row)
    (hg : rows.get? i = some r) (hf : rowFails r = true) :
    i ∉ (processRows send 0 rows).attempts
      ∧ (processRows send 0 rows).failedUsers = failLabels send 0 rows
      ∧ (∃ l, failLabel send i r = some l ∧ l ∈ (processRows send 0 rows).failedUsers
          ∧ (truthy r.name = true → strPre (jsName r) l))
      ∧ strPre (reportBase (processRows send 0 rows).successCount rows.length)
          (reportText (processRows send 0 rows) rows.length) := by
  have h0 : (0 : Nat) + i = i := by omega
  refine ⟨?_, failed_eq_failLabels send rows 0, ?_, reportBase_prefix_report _ _⟩
  · have hni := attempts_not_of_fails send rows 0 i r hg hf
    rwa [h0] at hni
  · obtain ⟨l, hl, hp⟩ := failLabel_of_fails send i r hf
    refine ⟨l, hl, ?_, hp⟩
    rw [failed_eq_failLabels]
    have hl2 : failLabel send (0 + i) r = some l := by rwa [h0]
    exact failLabels_mem send rows 0 i r l hg hl2

theorem C5_invalid_row_skipped_and_reported_witness :
    ([c5Row].get? 0 = some c5Row) ∧ rowFails c5Row = true
      ∧ 0 ∉ (processRows (fun _ => some "T1") 0 [c5Row]).attempts :=
  ⟨rfl, by decide,
    (C5_invalid_row_skipped_and_reported (fun _ => some "T1") [c5Row] 0 c5Row rfl
      (by decide)).1⟩

/-- C6: when at least one required column is missing from the header row,
the reader fails with an error carrying code `INVALID_HEADERS` and the list
of missing column names, resolving no data row; consequently
`processCsvAndNotify` dispatches nothing and posts the error notice to the
channel, and the part_002 `file_shared` handler creates no job entry. -/
theorem C6_missing_headers_reject (send : Nat → Option String) (f : CsvFile)
    (s : AppState) (fileId channelId userId fileName imsg dmsg : String)
    (h : missingHeaders f ≠ []) :
    readCsvFile f = .error ⟨"INVALID_HEADERS", missingHeaders f⟩
      ∧ processCsvAndNotify send f =
          ⟨["❌ " ++ csvErrMessage ⟨"INVALID_HEADERS", missingHeaders f⟩], none⟩
      ∧ (file_shared ⟨true, true, true, f, fileName, imsg, dmsg⟩
            s fileId channelId userId).1.pendingJobs = s.pendingJobs := by
  have hemp : (missingHeaders f).isEmpty = false := by
    cases hm : missingHeaders f with
    | nil => exact absurd hm h
    | cons a t => rfl
  have hread : readCsvFile f = .error ⟨"INVALID_HEADERS", missingHeaders f⟩ := by
    simp [readCsvFile, hemp]
  refine ⟨hread, ?_, ?_⟩
  · simp [processCsvAndNotify, hread]
  · by_cases hc : fileId ∈ s.processedFiles
    · simp [file_shared, hc]
    · simp [file_shared, hc, hread]

theorem C6_missing_headers_reject_witness :
    missingHeaders c6Csv ≠ []
      ∧ readCsvFile c6Csv = .error ⟨"INVALID_HEADERS", missingHeaders c6Csv⟩ :=
  ⟨by decide,
    (C6_missing_headers_reject (fun _ => none) c6Csv ⟨[], [], [], []⟩ "F" "C" "U"
      "n" "i" "d" (by decide)).1⟩

/-- C7: a confirm or cancel action whose acting user differs from the
staged job's originating user changes nothing: both handlers return the
state exactly as it was (job store, parsed rows, artifact files, tracker
maps all untouched, so the job is still staged and can be confirmed or
cancelled later), and their only external call is opening the
access-denied modal — in particular no DM is attempted and no message is
updated. -/
theorem C7_wrong_user_no_mutation (env : ConfirmEnv) (s : AppState)
    (jobId clickingUser channel ts : String) (job : Job)
    (hj : jobLookup s.pendingJobs jobId = some job)
    (hu : clickingUser ≠ job.userId) :
    confirm_send_action env s jobId clickingUser channel ts
        = (s, [.accessDeniedModal clickingUser])
      ∧ cancel_send_action env s jobId clickingUser channel ts
        = (s, [.accessDeniedModal clickingUser]) := by
  have hbe : (clickingUser == job.userId) = false := beq_eq_false_iff_ne.mpr hu
  constructor
  · simp [confirm_send_action, hj, hbe]
  · simp [cancel_send_action, hj, hbe]

theorem C7_wrong_user_no_mutation_witness :
    jobLookup c7State.pendingJobs "F3" = some c7Job
      ∧ ("U2" : String) ≠ c7Job.userId
      ∧ confirm_send_action c7Env c7State "F3" "U2" "C1" "T1"
          = (c7State, [.accessDeniedModal "U2"]) :=
  ⟨by decide, by decide,
    (C7_wrong_user_no_mutation c7Env c7State "F3" "U2" "C1" "T1" c7Job (by decide)
      (by decide)).1⟩

/-- C8: when the external send for a valid row throws, that row is
classified send-failed — its display name enters the failure list — it is
attempted exactly once (no retry), every other valid row of the job is
still attempted (one row's failure never aborts the loop), and the single
aggregate report is still the one message posted to the originating
channel. -/
theorem C8_send_failure_isolated (send : Nat → Option String) (f : CsvFile)
    (rows : List Row) (i : Nat) (r : Row)
    (hok : readCsvFile f = .ok rows) (hg : rows.get? i = some r)
    (hv : rowValid r = true) (hs : send i = none) :
    jsName r ∈ (processRows send 0 rows).failedUsers
      ∧ (processRows send 0 rows).attempts.count i = 1
      ∧ (∀ (j : Nat) (r2 : Row), rows.get? j = some r2 → rowValid r2 = true →
          j ∈ (processRows send 0 rows).attempts)
      ∧ processCsvAndNotify send f =
          ⟨[reportText (processRows send 0 rows) rows.length],
            some (processRows send 0 rows)⟩ := by
  obtain ⟨hm, ⟨fv, hfv⟩, ⟨hv2, hhv⟩⟩ := rowValid_elim r hv
  have h0 : (0 : Nat) + i = i := by omega
  refine ⟨?_, ?_, ?_, ?_⟩
  · have hl : failLabel send i r = some (jsName r) := by
      simp [failLabel, hm, hfv, hhv, hs]
    rw [failed_eq_failLabels]
    have hl2 : failLabel send (0 + i) r = some (jsName r) := by rwa [h0]
    exact failLabels_mem send rows 0 i r (jsName r) hg hl2
  · have hcnt := attempts_count_of_valid send rows 0 i r hg hv
    rwa [h0] at hcnt
  · intro j r2 hg2 hv2b
    have hat := attempts_of_valid send rows 0 j r2 hg2 hv2b
    rwa [show (0 : Nat) + j = j by omega] at hat
  · simp [processCsvAndNotify, hok]

theorem C8_send_failure_isolated_witness :
    readCsvFile c8Csv = .ok [c8Row]
      ∧ rowValid c8Row = true
      ∧ jsName c8Row ∈ (processRows (fun _ => none) 0 [c8Row]).failedUsers :=
  ⟨rfl, by decide,
    (C8_send_failure_isolated (fun _ => none) c8Csv [c8Row] 0 c8Row rfl rfl
      (by decide) rfl).1⟩

/-- C9: after a dispatch with at least one successful send, the aggregate
report contains the details section: the successfully sent row's detail
line — display name, salary amount, absences count and holidays-worked
count — is recorded in `detailLines`, and both the section marker and that
detail line occur verbatim inside the posted report text. -/
theorem C9_report_details_section (send : Nat → Option String) (rows : List Row)
    (i : Nat) (r : Row) (f h2 : Int) (ts : String)
    (hg : rows.get? i = some r) (hm : rowMissing r = false)
    (hf : numField r.faltas = some f) (hh : numField r.feriados = some h2)
    (hs : send i = some ts) :
    detailLine (jsName r) (jsSalary r) f h2 ∈ (processRows send 0 rows).detailLines
      ∧ occursIn "*Detalhes enviados:*" (reportText (processRows send 0 rows) rows.length)
      ∧ occursIn (detailLine (jsName r) (jsSalary r) f h2)
          (reportText (processRows send 0 rows) rows.length) := by
  have hs0 : send (0 + i) = some ts := by rwa [show (0 : Nat) + i = i by omega]
  have hmem := details_mem send rows 0 i r f h2 ts hg hm hf hh hs0
  have hpair := report_contains_details (processRows send 0 rows) rows.length _ hmem
    (detailLine_data_ne _ _ _ _)
  exact ⟨hmem, hpair.1, hpair.2⟩

theorem C9_report_details_section_witness :
    rowMissing c8Row = false
      ∧ numField c8Row.faltas = some 1
      ∧ numField c8Row.feriados = some 2
      ∧ detailLine (jsName c8Row) (jsSalary c8Row) 1 2
          ∈ (processRows (fun _ => some "T1") 0 [c8Row]).detailLines :=
  ⟨by decide, by decide, by decide,
    (C9_report_details_section (fun _ => some "T1") [c8Row] 0 c8Row 1 2 "T1" rfl
      (by decide) (by decide) (by decide) rfl).1⟩

/-- C10: an absences (or holidays-worked) field that begins with a run of
decimal digits followed by non-numeric characters parses via `parseInt` to
the value of that digit run; with the other required fields present and a
successful send the row is dispatched — the rendered DM and the report's
detail line both use the truncated value; and conversely any field whose
text begins with a digit never parses to `NaN`, so only a field with no
leading integer prefix can be classified invalid-numeric. -/
theorem C10_parseInt_truncation (send : Nat → Option String) (rows : List Row)
    (i : Nat) (r : Row) (s : String) (d t : List Char) (h2 : Int) (ts : String)
    (hraw : r.faltas = some s)
    (hsd : s.data = d ++ t) (hdne : d ≠ [])
    (hdig : ∀ c ∈ d, c.isDigit = true)
    (hth : ∀ c, t.head? = some c → c.isDigit = false)
    (husr : truthy r.slackUser = true) (hsal : truthy r.salary = true)
    (hname : truthy r.name = true)
    (hfer : numField r.feriados = some h2)
    (hg : rows.get? i = some r) (hs : send i = some ts) :
    jsParseInt s = some ((digitsVal d : Int))
      ∧ numField r.faltas = some ((digitsVal d : Int))
      ∧ (jsUser r, generateMessage (jsName r) (jsSalary r) ((digitsVal d : Int)) h2)
          ∈ (processRows send 0 rows).dms
      ∧ detailLine (jsName r) (jsSalary r) ((digitsVal d : Int)) h2
          ∈ (processRows send 0 rows).detailLines
      ∧ (∀ (u : String) (c : Char) (cs : List Char),
          u.data = c :: cs → c.isDigit = true → jsParseInt u ≠ none) := by
  have hparse : jsParseInt s = some ((digitsVal d : Int)) :=
    jsParseInt_digit_run s d t hsd hdne hdig hth
  have hsne : (s == "") = false := by
    apply str_beq_empty_false
    rw [hsd]
    cases d with
    | nil => exact absurd rfl hdne
    | cons c d2 => simp
  have hnum : numField r.faltas = some ((digitsVal d : Int)) := by
    rw [hraw]
    simp [numField, hsne, hparse]
  have hm : rowMissing r = false := by simp [rowMissing, husr, hsal, hname]
  refine ⟨hparse, hnum, ?_, ?_, ?_⟩
  · exact dms_mem send rows 0 i r _ h2 hg hm hnum hfer
  · have hs0 : send (0 + i) = some ts := by rwa [show (0 : Nat) + i = i by omega]
    exact details_mem send rows 0 i r _ h2 ts hg hm hnum hfer hs0
  · intro u c cs hu2 hc
    exact jsParseInt_head_digit u c cs hu2 hc

theorem C10_parseInt_truncation_witness :
    "12abc".data = ['1', '2'] ++ ['a', 'b', 'c']
      ∧ jsParseInt "12abc" = some ((digitsVal ['1', '2'] : Int)) :=
  ⟨by decide,
    (C10_parseInt_truncation (fun _ => some "T9") [c10Row] 0 c10Row "12abc"
      ['1', '2'] ['a', 'b', 'c'] 0 "T9" rfl (by decide) (by decide) (by decide)
      (by intro c hc
          have hc2 : c = 'a' := by simpa using hc.symm
          subst hc2
          decide)
      (by decide) (by decide) (by decide) (by decide) rfl rfl).1⟩
